import Mathlib

/-!
Shallow embedding of the conversion pipeline in `src/services/cssProcessor.ts`
(class `CSSProcessor` and its private `LRUCache`), together with theorems
settling the frozen claims about the natural-language specification.

Strings are modelled by Lean `String` (a list of characters); the JavaScript
regular expressions used by the source are translated into executable
decision procedures over `List Char` with explicit existential-split
semantics where the pattern is not deterministic.  The browser DOM and
`window.getComputedStyle` are modelled by an injectable oracle
`StyleOracle`; a thrown JavaScript value is an `Except.error` carrying a
`JsValue`.  The instrumentation fields of `ConvertOut` (`stage`,
`collaboratorCalls`, `leakedElements`) record, for each return site of
`convertTailwindToCSS`, which exit was taken, how often the
style-computation collaborator was invoked, and how many virtual elements
were still attached to the document when the call returned.
-/

/-- The whitespace character class used by JavaScript `trim` / `\s`
(restricted to the ASCII whitespace characters). -/
def jsWs (c : Char) : Bool :=
  c == ' ' || c == '\t' || c == '\n' || c == '\r' || c == '\x0b' || c == '\x0c'

/-- JavaScript `String.prototype.trim` on a character list. -/
def jsTrimList (l : List Char) : List Char :=
  ((l.dropWhile jsWs).reverse.dropWhile jsWs).reverse

/-- JavaScript `String.prototype.trim`. -/
def jsTrim (s : String) : String :=
  String.mk (jsTrimList s.data)

/-- One step of `replace(/\s+/g, ' ')`: collapse every run of whitespace
characters into a single space. -/
def collapseWs : List Char → List Char
  | [] => []
  | [c] => if jsWs c then [' '] else [c]
  | c :: d :: rest =>
    if jsWs c && jsWs d then collapseWs (d :: rest)
    else (if jsWs c then ' ' else c) :: collapseWs (d :: rest)

/-- Accumulator-based splitting of a character list at whitespace,
dropping empty pieces; models `split(/\s+/).filter(Boolean)`. -/
def splitTokensAux : List Char → List Char → List (List Char)
  | [], acc => if acc.isEmpty then [] else [acc.reverse]
  | c :: cs, acc =>
    if jsWs c then
      (if acc.isEmpty then splitTokensAux cs [] else acc.reverse :: splitTokensAux cs [])
    else splitTokensAux cs (c :: acc)

/-- Non-empty whitespace-separated tokens of a character list. -/
def splitTokens (l : List Char) : List (List Char) :=
  splitTokensAux l []

/-- Case-insensitive "starts with" on character lists (ASCII case folding,
as in a `/i` regular expression over the source's ASCII patterns). -/
def startsWithCI : List Char → List Char → Bool
  | _, [] => true
  | [], _ :: _ => false
  | c :: cs, p :: ps => (c.toLower == p.toLower) && startsWithCI cs ps

/-- Case-insensitive substring test: models `/pat/i.test(s)` for a literal
pattern `pat`. -/
def containsCI : List Char → List Char → Bool
  | [], p => p.isEmpty
  | c :: cs, p => startsWithCI (c :: cs) p || containsCI cs p

/-- Case-sensitive "starts with" on character lists. -/
def startsWithStr : List Char → List Char → Bool
  | _, [] => true
  | [], _ :: _ => false
  | c :: cs, p :: ps => (c == p) && startsWithStr cs ps

/-- Case-sensitive substring test: models `String.prototype.includes`. -/
def containsStr : List Char → List Char → Bool
  | [], p => p.isEmpty
  | c :: cs, p => startsWithStr (c :: cs) p || containsStr cs p

/-- The JavaScript `\w` word-character class. -/
def isWordChar (c : Char) : Bool :=
  c.isAlpha || c.isDigit || c == '_'

/-- Matcher for the tail of `/on\w+\s*=/i` after the literal `on`:
one or more word characters, then optional whitespace, then `=`.
Because `\w`, `\s` and `=` are pairwise disjoint character classes, the
backtracking regex succeeds exactly when the maximal-run reading does. -/
def onEventAfter (l : List Char) : Bool :=
  let w := l.takeWhile isWordChar
  let rest := (l.dropWhile isWordChar).dropWhile jsWs
  !w.isEmpty &&
    (match rest with
     | '=' :: _ => true
     | _ => false)

/-- Full test for `/on\w+\s*=/i` anywhere in the list. -/
def onEventHit : List Char → Bool
  | [] => false
  | c :: cs =>
    ((c.toLower == 'o') &&
      (match cs with
       | d :: ds => (d.toLower == 'n') && onEventAfter ds
       | [] => false)) || onEventHit cs

/-- The character class `[<>{}()[\]]` of the source's special-character
regular expressions. -/
def isSpecial (c : Char) : Bool :=
  c == '<' || c == '>' || c == '\x7b' || c == '\x7d' ||
  c == '(' || c == ')' || c == '[' || c == ']'

/-- All splits of a list into two contiguous parts. -/
def splits2 (l : List Char) : List (List Char × List Char) :=
  (List.range (l.length + 1)).map (fun i => (l.take i, l.drop i))

/-- The size-scale suffix alternatives of the first diagnostic pattern:
`(\d+|xs|sm|md|lg|xl|2xl|3xl|4xl|5xl|6xl|7xl|8xl|9xl)?`, case-insensitive. -/
def sizeSuffixes : List (List Char) :=
  ["xs", "sm", "md", "lg", "xl", "2xl", "3xl", "4xl", "5xl",
   "6xl", "7xl", "8xl", "9xl"].map String.data

/-- The fraction denominators of `(\/(10|20|25|30|40|50|60|70|75|80|90|95|100))?`. -/
def fractionParts : List (List Char) :=
  ["10", "20", "25", "30", "40", "50", "60", "70", "75",
   "80", "90", "95", "100"].map String.data

/-- The `[a-z-]` character class under the `/i` flag. -/
def isAlphaDash (c : Char) : Bool :=
  c.isAlpha || c == '-'

/-- The optional size-scale suffix group of the first diagnostic pattern. -/
def suffixOk (b : List Char) : Bool :=
  b.isEmpty || (!b.isEmpty && b.all Char.isDigit) ||
    sizeSuffixes.any (fun p => b.map Char.toLower == p)

/-- The optional `/fraction` suffix group of the first diagnostic pattern. -/
def fracOk (c : List Char) : Bool :=
  c.isEmpty ||
    (match c with
     | '/' :: rest => fractionParts.any (fun p => rest == p)
     | _ => false)

/-- Full-match test for the source's first diagnostic pattern
`/^[a-z-]+(\d+|xs|...|9xl)?(\/(10|...|100))?$/i`, via existential split
semantics (a backtracking regex matches exactly when some decomposition
into the three groups matches). -/
def isTW1 (s : List Char) : Bool :=
  (splits2 s).any fun p =>
    (splits2 p.2).any fun q =>
      !p.1.isEmpty && p.1.all isAlphaDash && suffixOk q.1 && fracOk q.2

/-- The state-variant alternatives of the second diagnostic pattern. -/
def variantNames : List (List Char) :=
  ["hover", "focus", "active", "disabled", "first", "last", "odd",
   "even", "group-hover", "group-focus"].map String.data

/-- Test for `/^(hover|focus|active|disabled|first|last|odd|even|group-hover|group-focus):/i`. -/
def isTW2 (s : List Char) : Bool :=
  variantNames.any (fun v => startsWithCI s (v ++ [':']))

/-- The breakpoint alternatives of the third diagnostic pattern. -/
def breakpointNames : List (List Char) :=
  ["sm", "md", "lg", "xl", "2xl"].map String.data

/-- Test for `/^(sm|md|lg|xl|2xl):/i`. -/
def isTW3 (s : List Char) : Bool :=
  breakpointNames.any (fun v => startsWithCI s (v ++ [':']))

/-- The JavaScript `.` (dot) character class: any character except a line
terminator. -/
def dotOk (c : Char) : Bool :=
  !(c == '\n' || c == '\r' || c == '\u2028' || c == '\u2029')

/-- Full-match test for the arbitrary-value pattern `/^[a-z-]+\[.+\]$/i`. -/
def isTW4 (s : List Char) : Bool :=
  (splits2 s).any fun p =>
    !p.1.isEmpty && p.1.all isAlphaDash &&
      (match p.2 with
       | '[' :: rest =>
         !rest.isEmpty && rest.getLast? == some ']' &&
           !rest.dropLast.isEmpty && rest.dropLast.all dotOk
       | _ => false)

/-- The result type of a conversion: `ConversionResult` from
`src/types/converter.ts`.  `none` models an absent (`undefined`) optional
field. -/
structure ConversionResult where
  css : String
  error : Option String := none
  warnings : Option (List String) := none
deriving DecidableEq, Repr

/-- `ProcessorConfig` from `src/types/converter.ts`. -/
structure ProcessorConfig where
  debounceMs : Nat
  maxInputLength : Nat
  enableSyntaxHighlighting : Bool

/-- The default configuration of the `CSSProcessor` constructor. -/
def defaultConfig : ProcessorConfig :=
  { debounceMs := 300, maxInputLength := 10000, enableSyntaxHighlighting := true }

/-- The error message of the length guard. -/
def tooLongMsg (n : Nat) : String :=
  "Input too long. Maximum " ++ toString n ++ " characters allowed."

/-- The error message of the unsafe-content guard. -/
def unsafeMsg : String :=
  "Input contains potentially unsafe content. Please use only Tailwind CSS classes."

/-- The error message of the special-character density guard. -/
def tooManySpecialMsg : String :=
  "Input contains too many special characters. Please use valid Tailwind CSS classes."

/-- The sentinel comment returned when no styles survive filtering. -/
def noStylesMsg : String :=
  "/* No styles generated - try adding some Tailwind classes */"

/-- The generic message for a thrown value that is not an `Error`. -/
def genericErrorMsg : String :=
  "An unexpected error occurred during CSS conversion."

/-- The classified message for a `SecurityError`. -/
def securityErrorMsg : String :=
  "Security error: Unable to access computed styles. This might be due to browser security restrictions."

/-- The classified message for an error mentioning `DOM`. -/
def domErrorMsg : String :=
  "DOM error: Unable to create virtual element for style computation."

/-- The classified message for an error mentioning `getComputedStyle`. -/
def styleErrorMsg : String :=
  "Style computation error: Unable to extract CSS styles from the element."

/-- The union of `/<script/i`, `/javascript:/i`, `/on\w+\s*=/i`,
`/<iframe/i`, `/<object/i`, `/<embed/i` tested by `validateInput`. -/
def dangerousHit (l : List Char) : Bool :=
  containsCI l "<script".data || containsCI l "javascript:".data ||
    onEventHit l || containsCI l "<iframe".data ||
    containsCI l "<object".data || containsCI l "<embed".data

/-- `(classes.match(/[<>{}()[\]]/g) || []).length`. -/
def specialCharCount (l : List Char) : Nat :=
  (l.filter isSpecial).length

/-- `CSSProcessor.validateInput`. -/
def validateInput (classes : String) : ConversionResult :=
  if dangerousHit classes.data then
    { css := "", error := some unsafeMsg }
  else if specialCharCount classes.data > 10 then
    { css := "", error := some tooManySpecialMsg }
  else
    { css := "" }

/-- `CSSProcessor.sanitizeInput`: remove the special characters, collapse
whitespace runs to single spaces, then trim. -/
def sanitizeInput (classes : String) : String :=
  String.mk (jsTrimList (collapseWs (classes.data.filter (fun c => !isSpecial c))))

/-- A computed-style map (the modelled `CSSStyleDeclaration`): an
association list from property name to computed value, with absent
properties reading as the empty string. -/
def StyleDecl : Type := List (String × String)

/-- `CSSStyleDeclaration.getPropertyValue` on the modelled style map. -/
def getPropertyValue (styles : StyleDecl) (property : String) : String :=
  match styles.find? (fun e => e.1 == property) with
  | some e => e.2
  | none => ""

/-- The curated allow-list of `CSSProcessor.getRelevantCSSProperties`. -/
def relevantProps : List String :=
  ["display", "position", "top", "right", "bottom", "left", "z-index",
   "float", "clear", "overflow", "overflow-x", "overflow-y",
   "width", "height", "min-width", "min-height", "max-width", "max-height",
   "margin", "margin-top", "margin-right", "margin-bottom", "margin-left",
   "padding", "padding-top", "padding-right", "padding-bottom", "padding-left",
   "border", "border-width", "border-style", "border-color",
   "border-radius", "box-sizing",
   "font-family", "font-size", "font-weight", "font-style", "line-height",
   "text-align", "text-decoration", "text-transform", "letter-spacing",
   "word-spacing", "white-space",
   "color", "background-color", "background-image", "background-size",
   "background-position", "background-repeat", "opacity",
   "flex", "flex-direction", "flex-wrap", "justify-content", "align-items",
   "align-content", "flex-grow", "flex-shrink", "flex-basis",
   "grid-template-columns", "grid-template-rows", "grid-gap", "grid-column",
   "grid-row", "grid-area",
   "transform", "transition", "animation"]

/-- `CSSProcessor.getRelevantCSSProperties`: the allow-listed properties
whose computed value is truthy (non-empty). -/
def getRelevantCSSProperties (styles : StyleDecl) : List String :=
  relevantProps.filter (fun prop => !(getPropertyValue styles prop).isEmpty)

/-- The per-property default-value table of `CSSProcessor.isNonDefaultValue`. -/
def defaultValues : List (String × List String) :=
  [("margin", ["0px", "0"]),
   ("margin-top", ["0px", "0"]),
   ("margin-right", ["0px", "0"]),
   ("margin-bottom", ["0px", "0"]),
   ("margin-left", ["0px", "0"]),
   ("padding", ["0px", "0"]),
   ("padding-top", ["0px", "0"]),
   ("padding-right", ["0px", "0"]),
   ("padding-bottom", ["0px", "0"]),
   ("padding-left", ["0px", "0"]),
   ("border-width", ["0px", "0"]),
   ("opacity", ["1"]),
   ("font-weight", ["400", "normal"]),
   ("line-height", ["normal"]),
   ("text-decoration", ["none"]),
   ("background-color", ["rgba(0, 0, 0, 0)", "transparent"]),
   ("color", ["rgb(0, 0, 0)", "rgba(0, 0, 0, 1)"]),
   ("display", ["block", "inline"]),
   ("position", ["static"]),
   ("z-index", ["auto"]),
   ("overflow", ["visible"]),
   ("text-align", ["start", "left"]),
   ("font-style", ["normal"]),
   ("text-transform", ["none"]),
   ("white-space", ["normal"])]

/-- `CSSProcessor.isNonDefaultValue`. -/
def isNonDefaultValue (property value : String) : Bool :=
  if value.isEmpty || value == "initial" || value == "inherit" || value == "unset" then
    false
  else
    match defaultValues.find? (fun e => e.1 == property) with
    | some e => !(e.2.contains value)
    | none => true

/-- Lexicographic comparison of character lists by code point, as the
default JavaScript `Array.prototype.sort` comparator orders strings. -/
def charListLe : List Char → List Char → Bool
  | [], _ => true
  | _ :: _, [] => false
  | a :: as, b :: bs =>
    if a < b then true
    else if b < a then false
    else charListLe as bs

/-- Insertion step of the sorting used to model `cssRules.sort()`. -/
def insertSorted (s : String) : List String → List String
  | [] => [s]
  | t :: ts => if charListLe s.data t.data then s :: t :: ts else t :: insertSorted s ts

/-- `Array.prototype.sort()` with the default string comparator. -/
def sortStrings : List String → List String
  | [] => []
  | s :: ss => insertSorted s (sortStrings ss)

/-- `CSSProcessor.formatCSS`. -/
def formatCSS (styles : StyleDecl) : String :=
  let relevantProperties := getRelevantCSSProperties styles
  let cssRules := relevantProperties.filterMap fun property =>
    let value := getPropertyValue styles property
    if !value.isEmpty && isNonDefaultValue property value then
      some ("  " ++ property ++ ": " ++ value ++ ";")
    else none
  if cssRules.isEmpty then noStylesMsg
  else ".element \x7b\n" ++ String.intercalate "\n" (sortStrings cssRules) ++ "\n\x7d"

/-- `CSSProcessor.generateWarnings`. -/
def generateWarnings (classes css : String) : List String :=
  let classArray := splitTokens classes.data
  let invalidClasses := classArray.filter fun cls =>
    !isTW1 cls && !isTW2 cls && !isTW3 cls && !isTW4 cls
  let invalidWarnings : List String :=
    if invalidClasses.length > 0 && invalidClasses.length ≤ 3 then
      ["Potentially invalid classes: " ++
        String.intercalate ", " (invalidClasses.map String.mk)]
    else if invalidClasses.length > 3 then
      [toString invalidClasses.length ++ " potentially invalid classes detected"]
    else []
  let noStylesWarnings : List String :=
    if containsStr css.data "No styles generated".data && classArray.length > 0 then
      ["No CSS styles were generated. Check if the classes are valid Tailwind utilities."]
    else []
  let longWarnings : List String :=
    if (classArray.filter (fun cls => cls.length > 30)).length > 0 then
      ["Some class names are unusually long. Please verify they are correct."]
    else []
  invalidWarnings ++ noStylesWarnings ++ longWarnings

/-- A thrown JavaScript value: either an `Error` instance with a `name`
and a `message`, or any other value, of which `formatError` inspects
nothing (its textual representation is carried only to show that it is
never used). -/
inductive JsValue where
  | jsError (name message : String)
  | nonErrorValue (valueRepr : String)
deriving DecidableEq, Repr

/-- `CSSProcessor.formatError`. -/
def formatError (error : JsValue) : String :=
  match error with
  | JsValue.jsError name message =>
    if name == "SecurityError" then securityErrorMsg
    else if containsStr message.data "DOM".data then domErrorMsg
    else if containsStr message.data "getComputedStyle".data then styleErrorMsg
    else message
  | JsValue.nonErrorValue _ => genericErrorMsg

/-- The bounded LRU cache of `cssProcessor.ts`: a JavaScript `Map` (an
insertion-ordered association list with unique keys, oldest first) plus a
capacity. -/
structure LRUCache (K V : Type) where
  entries : List (K × V)
  maxSize : Nat
deriving DecidableEq, Repr

/-- `LRUCache.get`: on a hit, delete the key and re-insert it at the end
(most recently used); returns the looked-up value together with the
updated cache. -/
def LRUCache.get [DecidableEq K] (c : LRUCache K V) (key : K) :
    Option V × LRUCache K V :=
  match c.entries.find? (fun e => decide (e.1 = key)) with
  | some e =>
    (some e.2,
     ⟨c.entries.filter (fun x => decide (x.1 ≠ key)) ++ [(key, e.2)], c.maxSize⟩)
  | none => (none, c)

/-- `LRUCache.set`: refresh an existing key to the end, or insert a new
key, first evicting the oldest entry when the cache is at capacity. -/
def LRUCache.set [DecidableEq K] (c : LRUCache K V) (key : K) (value : V) :
    LRUCache K V :=
  if c.entries.any (fun e => decide (e.1 = key)) then
    ⟨c.entries.filter (fun e => decide (e.1 ≠ key)) ++ [(key, value)], c.maxSize⟩
  else if c.entries.length ≥ c.maxSize then
    ⟨c.entries.tail ++ [(key, value)], c.maxSize⟩
  else
    ⟨c.entries ++ [(key, value)], c.maxSize⟩

/-- `LRUCache.clear`. -/
def LRUCache.clear (c : LRUCache K V) : LRUCache K V :=
  ⟨[], c.maxSize⟩

/-- `LRUCache.size`. -/
def LRUCache.size (c : LRUCache K V) : Nat :=
  c.entries.length

/-- The empty conversion cache a `CSSProcessor` is constructed with
(capacity 50). -/
def emptyCache : LRUCache String ConversionResult :=
  ⟨[], 50⟩

/-- One cache operation, for stating properties of arbitrary operation
sequences on the bounded cache. -/
inductive CacheOp (K V : Type) where
  | get (key : K)
  | set (key : K) (value : V)
  | clear
deriving Repr

/-- Apply one cache operation to the cache. -/
def runOp [DecidableEq K] (c : LRUCache K V) : CacheOp K V → LRUCache K V
  | CacheOp.get key => (LRUCache.get c key).2
  | CacheOp.set key value => LRUCache.set c key value
  | CacheOp.clear => LRUCache.clear c

/-- Apply a sequence of cache operations, oldest first. -/
def runOps [DecidableEq K] (c : LRUCache K V) (ops : List (CacheOp K V)) :
    LRUCache K V :=
  ops.foldl runOp c

/-- The style-computation collaborator (`window.getComputedStyle` applied
to the virtual element): resolves a sanitized class string either to a
computed-style map or to a thrown value. -/
def StyleOracle : Type := String → Except JsValue StyleDecl

/-- Which return site of `convertTailwindToCSS` produced the result. -/
inductive Stage where
  | emptyInput
  | tooLong
  | cacheHit
  | guardFail
  | success
  | caught
deriving DecidableEq, Repr

/-- The observable outcome of one `convertTailwindToCSS` call: the
returned result, the cache afterwards, the return site taken, the number
of style-computation collaborator invocations made by the call, and the
number of virtual elements still attached to the document when the call
returned. -/
structure ConvertOut where
  result : ConversionResult
  cache : LRUCache String ConversionResult
  stage : Stage
  collaboratorCalls : Nat
  leakedElements : Nat
deriving DecidableEq, Repr

/-- `CSSProcessor.convertTailwindToCSS`.  The four guard/cache steps are
in source order: emptiness check, length check, cache lookup, then
`validateInput`.  On the extraction path the virtual element is attached,
the collaborator is invoked, and — exactly as in the source, where the
`cleanupVirtualElement` call is not in a `finally` block — the element is
removed again only when the collaborator returns normally; a thrown value
reaches the `catch` with the element still attached
(`leakedElements = 1`). -/
def convertTailwindToCSS (config : ProcessorConfig) (oracle : StyleOracle)
    (cache : LRUCache String ConversionResult) (classes : String) : ConvertOut :=
  if jsTrim classes = "" then
    { result := { css := "" }, cache := cache, stage := Stage.emptyInput,
      collaboratorCalls := 0, leakedElements := 0 }
  else if classes.length > config.maxInputLength then
    { result := { css := "", error := some (tooLongMsg config.maxInputLength) },
      cache := cache, stage := Stage.tooLong,
      collaboratorCalls := 0, leakedElements := 0 }
  else
    let cacheKey := jsTrim classes
    let lookup := LRUCache.get cache cacheKey
    match lookup.1 with
    | some cachedResult =>
      { result := cachedResult, cache := lookup.2, stage := Stage.cacheHit,
        collaboratorCalls := 0, leakedElements := 0 }
    | none =>
      let validationResult := validateInput classes
      match validationResult.error with
      | some _ =>
        { result := validationResult, cache := lookup.2, stage := Stage.guardFail,
          collaboratorCalls := 0, leakedElements := 0 }
      | none =>
        let sanitizedClasses := sanitizeInput classes
        match oracle sanitizedClasses with
        | Except.error e =>
          { result := { css := "", error := some (formatError e) },
            cache := lookup.2, stage := Stage.caught,
            collaboratorCalls := 1, leakedElements := 1 }
        | Except.ok computedStyles =>
          let css := formatCSS computedStyles
          let warnings := generateWarnings sanitizedClasses css
          let result : ConversionResult :=
            { css := css, error := none,
              warnings := if warnings.length > 0 then some warnings else none }
          { result := result, cache := LRUCache.set lookup.2 cacheKey result,
            stage := Stage.success, collaboratorCalls := 1, leakedElements := 0 }

theorem LRUCache.get_miss {K V : Type} [DecidableEq K] {c : LRUCache K V} {key : K}
    (h : (LRUCache.get c key).1 = none) : LRUCache.get c key = (none, c) := by
  unfold LRUCache.get at h ⊢
  cases hf : c.entries.find? (fun e => decide (e.1 = key)) with
  | none => simp
  | some e => rw [hf] at h; simp at h

theorem LRUCache.get_hit {K V : Type} [DecidableEq K] {c : LRUCache K V} {key : K} {v : V}
    (h : (LRUCache.get c key).1 = some v) :
    (key, v) ∈ c.entries ∧
      (LRUCache.get c key).2 =
        ⟨c.entries.filter (fun x => decide (x.1 ≠ key)) ++ [(key, v)], c.maxSize⟩ := by
  unfold LRUCache.get at h ⊢
  cases hf : c.entries.find? (fun e => decide (e.1 = key)) with
  | none => rw [hf] at h; simp at h
  | some e =>
    have hkey : e.1 = key := by
      have := List.find?_some hf
      simpa using this
    have hmem : e ∈ c.entries := List.mem_of_find?_eq_some hf
    rw [hf] at h
    dsimp only at h ⊢
    injection h with h
    constructor
    · rw [← h, ← hkey]
      exact hmem
    · rw [h]

theorem LRUCache.find?_filter_ne {K V : Type} [DecidableEq K]
    (l : List (K × V)) (key : K) :
    (l.filter (fun x => decide (x.1 ≠ key))).find? (fun e => decide (e.1 = key)) = none := by
  rw [List.find?_eq_none]
  intro x hx
  have := (List.mem_filter.mp hx).2
  simp at this ⊢
  exact this

theorem LRUCache.get_hit_again {K V : Type} [DecidableEq K] {c : LRUCache K V} {key : K} {v : V}
    (h : (LRUCache.get c key).1 = some v) :
    (LRUCache.get (LRUCache.get c key).2 key).1 = some v := by
  obtain ⟨-, h2⟩ := LRUCache.get_hit h
  rw [h2]
  unfold LRUCache.get
  rw [List.find?_append, LRUCache.find?_filter_ne]
  simp

theorem LRUCache.set_get {K V : Type} [DecidableEq K] (c : LRUCache K V) (key : K) (v : V) :
    (LRUCache.get (LRUCache.set c key v) key).1 = some v := by
  unfold LRUCache.set
  by_cases hpres : c.entries.any (fun e => decide (e.1 = key)) = true
  · rw [if_pos hpres]
    unfold LRUCache.get
    dsimp only
    rw [List.find?_append, LRUCache.find?_filter_ne]
    simp
  · have hall : ∀ x ∈ c.entries, x.1 ≠ key := by
      intro x hx
      by_contra hcon
      exact hpres (List.any_eq_true.mpr ⟨x, hx, by simpa using hcon⟩)
    rw [if_neg hpres]
    by_cases hlen : c.entries.length ≥ c.maxSize
    · rw [if_pos hlen]
      unfold LRUCache.get
      dsimp only
      have htail : (c.entries.tail).find? (fun e => decide (e.1 = key)) = none := by
        rw [List.find?_eq_none]
        intro x hx
        simpa using hall x (List.mem_of_mem_tail hx)
      rw [List.find?_append, htail]
      simp
    · rw [if_neg hlen]
      unfold LRUCache.get
      dsimp only
      have hnone : c.entries.find? (fun e => decide (e.1 = key)) = none := by
        rw [List.find?_eq_none]
        intro x hx
        simpa using hall x hx
      rw [List.find?_append, hnone]
      simp

theorem LRUCache.mem_set {K V : Type} [DecidableEq K] {c : LRUCache K V} {key : K} {v : V}
    {e : K × V} (h : e ∈ (LRUCache.set c key v).entries) :
    e ∈ c.entries ∨ e = (key, v) := by
  unfold LRUCache.set at h
  by_cases hpres : c.entries.any (fun x => decide (x.1 = key)) = true
  · simp only [hpres, if_true] at h
    rcases List.mem_append.mp h with h1 | h1
    · exact Or.inl (List.mem_filter.mp h1).1
    · right; simpa using h1
  · simp only [hpres, if_false] at h
    by_cases hlen : c.entries.length ≥ c.maxSize
    · simp only [hlen, if_true] at h
      rcases List.mem_append.mp h with h1 | h1
      · exact Or.inl (List.mem_of_mem_tail h1)
      · right; simpa using h1
    · simp only [hlen, if_false] at h
      rcases List.mem_append.mp h with h1 | h1
      · exact Or.inl h1
      · right; simpa using h1

theorem LRUCache.maxSize_get {K V : Type} [DecidableEq K] (c : LRUCache K V) (key : K) :
    (LRUCache.get c key).2.maxSize = c.maxSize := by
  unfold LRUCache.get
  cases hf : c.entries.find? (fun e => decide (e.1 = key)) <;> rfl

theorem LRUCache.maxSize_set {K V : Type} [DecidableEq K] (c : LRUCache K V)
    (key : K) (value : V) :
    (LRUCache.set c key value).maxSize = c.maxSize := by
  unfold LRUCache.set
  by_cases h1 : c.entries.any (fun e => decide (e.1 = key)) = true
  · rw [if_pos h1]
  · rw [if_neg h1]
    by_cases h2 : c.entries.length ≥ c.maxSize
    · rw [if_pos h2]
    · rw [if_neg h2]

theorem LRUCache.size_get_le {K V : Type} [DecidableEq K] (c : LRUCache K V) (key : K) :
    (LRUCache.get c key).2.size ≤ c.size := by
  unfold LRUCache.get LRUCache.size
  cases hf : c.entries.find? (fun e => decide (e.1 = key)) with
  | none => exact Nat.le_refl _
  | some e =>
    dsimp only
    rw [List.length_append]
    have hmem : e ∈ c.entries := List.mem_of_find?_eq_some hf
    have hkey : e.1 = key := by simpa using List.find?_some hf
    have hstrict : (c.entries.filter (fun x => decide (x.1 ≠ key))).length < c.entries.length :=
      List.length_filter_lt_length_iff_exists.mpr ⟨e, hmem, by simp [hkey]⟩
    simpa using Nat.succ_le_of_lt hstrict

theorem LRUCache.size_set_le {K V : Type} [DecidableEq K] (c : LRUCache K V)
    (key : K) (value : V) (hmax : 0 < c.maxSize) (h : c.size ≤ c.maxSize) :
    (LRUCache.set c key value).size ≤ c.maxSize := by
  unfold LRUCache.set LRUCache.size at *
  by_cases hpres : c.entries.any (fun e => decide (e.1 = key)) = true
  · rw [if_pos hpres]
    dsimp only
    rw [List.length_append]
    obtain ⟨x, hx, hpx⟩ := List.any_eq_true.mp hpres
    have hxkey : x.1 = key := by simpa using hpx
    have hstrict : (c.entries.filter (fun e => decide (e.1 ≠ key))).length < c.entries.length :=
      List.length_filter_lt_length_iff_exists.mpr ⟨x, hx, by simp [hxkey]⟩
    simp only [List.length_singleton]
    omega
  · rw [if_neg hpres]
    by_cases hlen : c.entries.length ≥ c.maxSize
    · rw [if_pos hlen]
      dsimp only
      rw [List.length_append, List.length_tail]
      simp only [List.length_singleton]
      omega
    · rw [if_neg hlen]
      dsimp only
      rw [List.length_append]
      simp only [List.length_singleton]
      omega

theorem runOp_invariant {K V : Type} [DecidableEq K] (c : LRUCache K V)
    (op : CacheOp K V) (hmax : 0 < c.maxSize) (h : c.size ≤ c.maxSize) :
    (runOp c op).size ≤ c.maxSize ∧ (runOp c op).maxSize = c.maxSize := by
  cases op with
  | get key =>
    exact ⟨Nat.le_trans (LRUCache.size_get_le c key) h, LRUCache.maxSize_get c key⟩
  | set key value =>
    exact ⟨LRUCache.size_set_le c key value hmax h, LRUCache.maxSize_set c key value⟩
  | clear =>
    exact ⟨Nat.zero_le _, rfl⟩

theorem runOps_invariant {K V : Type} [DecidableEq K] :
    ∀ (ops : List (CacheOp K V)) (c : LRUCache K V), 0 < c.maxSize →
      c.size ≤ c.maxSize →
      (runOps c ops).size ≤ c.maxSize ∧ (runOps c ops).maxSize = c.maxSize := by
  intro ops
  induction ops with
  | nil => exact fun c _ h => ⟨h, rfl⟩
  | cons op ops ih =>
    intro c hmax h
    have step := runOp_invariant c op hmax h
    have := ih (runOp c op) (step.2 ▸ hmax) (step.2 ▸ step.1)
    exact ⟨step.2 ▸ this.1, step.2 ▸ this.2⟩

/-- The result assembled by the success path of `convertTailwindToCSS`
(lines 92-103 of the source), named for use in lemma statements. -/
def successResult (classes : String) (styles : StyleDecl) : ConversionResult :=
  let css := formatCSS styles
  let warnings := generateWarnings (sanitizeInput classes) css
  { css := css, error := none,
    warnings := if warnings.length > 0 then some warnings else none }

theorem convert_emptyInput (config : ProcessorConfig) (oracle : StyleOracle)
    (cache : LRUCache String ConversionResult) (classes : String)
    (h : jsTrim classes = "") :
    convertTailwindToCSS config oracle cache classes =
      { result := { css := "" }, cache := cache, stage := Stage.emptyInput,
        collaboratorCalls := 0, leakedElements := 0 } := by
  unfold convertTailwindToCSS
  rw [if_pos h]

theorem convert_tooLong (config : ProcessorConfig) (oracle : StyleOracle)
    (cache : LRUCache String ConversionResult) (classes : String)
    (h1 : ¬jsTrim classes = "")
    (h2 : classes.length > config.maxInputLength) :
    convertTailwindToCSS config oracle cache classes =
      { result := { css := "", error := some (tooLongMsg config.maxInputLength) },
        cache := cache, stage := Stage.tooLong,
        collaboratorCalls := 0, leakedElements := 0 } := by
  unfold convertTailwindToCSS
  rw [if_neg h1, if_pos h2]

theorem convert_cacheHit {config : ProcessorConfig} {oracle : StyleOracle}
    {cache : LRUCache String ConversionResult} {classes : String} {v : ConversionResult}
    (h1 : ¬jsTrim classes = "")
    (h2 : ¬ classes.length > config.maxInputLength)
    (h3 : (LRUCache.get cache (jsTrim classes)).1 = some v) :
    convertTailwindToCSS config oracle cache classes =
      { result := v, cache := (LRUCache.get cache (jsTrim classes)).2,
        stage := Stage.cacheHit, collaboratorCalls := 0, leakedElements := 0 } := by
  unfold convertTailwindToCSS
  rw [if_neg h1, if_neg h2]
  simp only [h3]

theorem convert_guardFail {config : ProcessorConfig} {oracle : StyleOracle}
    {cache : LRUCache String ConversionResult} {classes : String} {err : String}
    (h1 : ¬jsTrim classes = "")
    (h2 : ¬ classes.length > config.maxInputLength)
    (h3 : (LRUCache.get cache (jsTrim classes)).1 = none)
    (h4 : (validateInput classes).error = some err) :
    convertTailwindToCSS config oracle cache classes =
      { result := validateInput classes, cache := cache,
        stage := Stage.guardFail, collaboratorCalls := 0, leakedElements := 0 } := by
  unfold convertTailwindToCSS
  rw [if_neg h1, if_neg h2]
  simp only [h3, h4, LRUCache.get_miss h3]

theorem convert_caught {config : ProcessorConfig} {oracle : StyleOracle}
    {cache : LRUCache String ConversionResult} {classes : String} {e : JsValue}
    (h1 : ¬jsTrim classes = "")
    (h2 : ¬ classes.length > config.maxInputLength)
    (h3 : (LRUCache.get cache (jsTrim classes)).1 = none)
    (h4 : (validateInput classes).error = none)
    (h5 : oracle (sanitizeInput classes) = Except.error e) :
    convertTailwindToCSS config oracle cache classes =
      { result := { css := "", error := some (formatError e) }, cache := cache,
        stage := Stage.caught, collaboratorCalls := 1, leakedElements := 1 } := by
  unfold convertTailwindToCSS
  rw [if_neg h1, if_neg h2]
  simp only [h3, h4, h5, LRUCache.get_miss h3]

theorem convert_success {config : ProcessorConfig} {oracle : StyleOracle}
    {cache : LRUCache String ConversionResult} {classes : String} {styles : StyleDecl}
    (h1 : ¬jsTrim classes = "")
    (h2 : ¬ classes.length > config.maxInputLength)
    (h3 : (LRUCache.get cache (jsTrim classes)).1 = none)
    (h4 : (validateInput classes).error = none)
    (h5 : oracle (sanitizeInput classes) = Except.ok styles) :
    convertTailwindToCSS config oracle cache classes =
      { result := successResult classes styles,
        cache := LRUCache.set cache (jsTrim classes) (successResult classes styles),
        stage := Stage.success, collaboratorCalls := 1, leakedElements := 0 } := by
  unfold convertTailwindToCSS successResult
  rw [if_neg h1, if_neg h2]
  simp only [h3, h4, h5, LRUCache.get_miss h3]

/-- Exhaustive characterization of `convertTailwindToCSS`: every call takes
exactly one of the six return paths, with the stated conditions. -/
theorem convert_cases (config : ProcessorConfig) (oracle : StyleOracle)
    (cache : LRUCache String ConversionResult) (classes : String) :
    (jsTrim classes = "" ∧
      convertTailwindToCSS config oracle cache classes =
        { result := { css := "" }, cache := cache, stage := Stage.emptyInput,
          collaboratorCalls := 0, leakedElements := 0 })
    ∨ (¬jsTrim classes = "" ∧ classes.length > config.maxInputLength ∧
        convertTailwindToCSS config oracle cache classes =
          { result := { css := "", error := some (tooLongMsg config.maxInputLength) },
            cache := cache, stage := Stage.tooLong,
            collaboratorCalls := 0, leakedElements := 0 })
    ∨ (∃ v, ¬jsTrim classes = "" ∧ ¬classes.length > config.maxInputLength ∧
        (LRUCache.get cache (jsTrim classes)).1 = some v ∧
        convertTailwindToCSS config oracle cache classes =
          { result := v, cache := (LRUCache.get cache (jsTrim classes)).2,
            stage := Stage.cacheHit, collaboratorCalls := 0, leakedElements := 0 })
    ∨ (∃ err, ¬jsTrim classes = "" ∧ ¬classes.length > config.maxInputLength ∧
        (LRUCache.get cache (jsTrim classes)).1 = none ∧
        (validateInput classes).error = some err ∧
        convertTailwindToCSS config oracle cache classes =
          { result := validateInput classes, cache := cache,
            stage := Stage.guardFail, collaboratorCalls := 0, leakedElements := 0 })
    ∨ (∃ e, ¬jsTrim classes = "" ∧ ¬classes.length > config.maxInputLength ∧
        (LRUCache.get cache (jsTrim classes)).1 = none ∧
        (validateInput classes).error = none ∧
        oracle (sanitizeInput classes) = Except.error e ∧
        convertTailwindToCSS config oracle cache classes =
          { result := { css := "", error := some (formatError e) }, cache := cache,
            stage := Stage.caught, collaboratorCalls := 1, leakedElements := 1 })
    ∨ (∃ styles, ¬jsTrim classes = "" ∧ ¬classes.length > config.maxInputLength ∧
        (LRUCache.get cache (jsTrim classes)).1 = none ∧
        (validateInput classes).error = none ∧
        oracle (sanitizeInput classes) = Except.ok styles ∧
        convertTailwindToCSS config oracle cache classes =
          { result := successResult classes styles,
            cache := LRUCache.set cache (jsTrim classes) (successResult classes styles),
            stage := Stage.success, collaboratorCalls := 1, leakedElements := 0 }) := by
  by_cases hE : jsTrim classes = ""
  · exact Or.inl ⟨hE, convert_emptyInput config oracle cache classes hE⟩
  by_cases hL : classes.length > config.maxInputLength
  · exact Or.inr (Or.inl ⟨hE, hL, convert_tooLong config oracle cache classes hE hL⟩)
  cases hGet : (LRUCache.get cache (jsTrim classes)).1 with
  | some v =>
    exact Or.inr (Or.inr (Or.inl ⟨v, hE, hL, rfl, convert_cacheHit hE hL hGet⟩))
  | none =>
    cases hVal : (validateInput classes).error with
    | some err =>
      exact Or.inr (Or.inr (Or.inr (Or.inl
        ⟨err, hE, hL, rfl, rfl, convert_guardFail hE hL hGet hVal⟩)))
    | none =>
      cases hOr : oracle (sanitizeInput classes) with
      | error e =>
        exact Or.inr (Or.inr (Or.inr (Or.inr (Or.inl
          ⟨e, hE, hL, rfl, rfl, rfl, convert_caught hE hL hGet hVal hOr⟩))))
      | ok styles =>
        exact Or.inr (Or.inr (Or.inr (Or.inr (Or.inr
          ⟨styles, hE, hL, rfl, rfl, rfl, convert_success hE hL hGet hVal hOr⟩))))

set_option maxRecDepth 4000 in
/-- Claim C7: for every sequence of get/set/clear operations on the bounded
cache of capacity 50 the size never exceeds 50; a set of a brand-new key
when the cache is full evicts exactly the single least-recently-used
(oldest) entry; a get of a present key and any set promote the key to
most-recently-used (the end of the recency order); and inserting 60
distinct keys into an empty capacity-50 cache leaves exactly the 50 most
recent resident, the 10 least-recently-used having been evicted. -/
theorem claim_C7_lru_invariants :
    (∀ ops : List (CacheOp Nat Nat), (runOps ⟨[], 50⟩ ops).size ≤ 50)
    ∧ (∀ (c : LRUCache Nat Nat) (k v : Nat),
        c.entries.any (fun e => decide (e.1 = k)) = false →
        c.entries.length = 50 → c.maxSize = 50 →
        (LRUCache.set c k v).entries = c.entries.tail ++ [(k, v)])
    ∧ (∀ (c : LRUCache Nat Nat) (k w : Nat),
        (LRUCache.get c k).1 = some w →
        (LRUCache.get c k).2.entries.getLast? = some (k, w))
    ∧ (∀ (c : LRUCache Nat Nat) (k v : Nat),
        (LRUCache.set c k v).entries.getLast? = some (k, v))
    ∧ ((runOps (⟨[], 50⟩ : LRUCache Nat Nat)
          ((List.range 60).map (fun i => CacheOp.set i i))).entries
        = (List.range' 10 50).map (fun i => (i, i))) := by
  refine ⟨?_, ?_, ?_, ?_, by decide⟩
  · intro ops
    exact (runOps_invariant ops ⟨[], 50⟩ (by decide) (by decide)).1
  · intro c k v hany hlen hmax
    unfold LRUCache.set
    rw [if_neg (by simp [hany]), if_pos (by omega)]
  · intro c k w h
    obtain ⟨-, h2⟩ := LRUCache.get_hit h
    rw [h2]
    exact List.getLast?_concat _
  · intro c k v
    unfold LRUCache.set
    by_cases h1 : c.entries.any (fun e => decide (e.1 = k)) = true
    · rw [if_pos h1]
      exact List.getLast?_concat _
    · rw [if_neg h1]
      by_cases h2 : c.entries.length ≥ c.maxSize
      · rw [if_pos h2]
        exact List.getLast?_concat _
      · rw [if_neg h2]
        exact List.getLast?_concat _

set_option maxRecDepth 4000 in
theorem claim_C7_lru_invariants_witness :
    (runOps (⟨[], 50⟩ : LRUCache Nat Nat)
        [CacheOp.set 1 1, CacheOp.get 1, CacheOp.clear]).size ≤ 50
    ∧ (LRUCache.set (⟨(List.range 50).map (fun i => (i, i)), 50⟩ : LRUCache Nat Nat)
          60 60).entries
        = ((List.range 50).map (fun i => (i, i))).tail ++ [(60, 60)] :=
  ⟨claim_C7_lru_invariants.1 _,
   claim_C7_lru_invariants.2.1 _ 60 60 (by decide) (by decide) rfl⟩

/-- Claim C6: starting from any cache in which no stored result carries an
error (the invariant every cache reachable through the processor
satisfies), a convert call whose result carries an error leaves the cache
exactly as it was, and afterwards the cache still contains no
error-carrying result — so error results, whether from a guard rejection
or from an exception during extraction/formatting, are never stored and a
failed input retried later is fully re-evaluated. -/
theorem claim_C6_error_never_cached :
    ∀ (config : ProcessorConfig) (oracle : StyleOracle)
      (cache : LRUCache String ConversionResult) (classes : String),
      (∀ e ∈ cache.entries, e.2.error = none) →
      (((convertTailwindToCSS config oracle cache classes).result.error ≠ none →
          (convertTailwindToCSS config oracle cache classes).cache = cache)
        ∧ (∀ e ∈ (convertTailwindToCSS config oracle cache classes).cache.entries,
            e.2.error = none)) := by
  intro config oracle cache classes hwf
  rcases convert_cases config oracle cache classes with
    ⟨-, hq⟩ | ⟨-, -, hq⟩ | ⟨v, -, -, hGet, hq⟩ | ⟨err, -, -, -, -, hq⟩ |
    ⟨e, -, -, -, -, -, hq⟩ | ⟨styles, -, -, -, -, -, hq⟩
  · rw [hq]; exact ⟨fun _ => rfl, hwf⟩
  · rw [hq]; exact ⟨fun _ => rfl, hwf⟩
  · rw [hq]
    obtain ⟨hmem, hsnd⟩ := LRUCache.get_hit hGet
    have hv : v.error = none := hwf _ hmem
    constructor
    · intro hcon
      exact absurd hv hcon
    · intro x hx
      rw [hsnd] at hx
      rcases List.mem_append.mp hx with h1 | h1
      · exact hwf _ (List.mem_filter.mp h1).1
      · have : x = (jsTrim classes, v) := by simpa using h1
        rw [this]
        exact hv
  · rw [hq]; exact ⟨fun _ => rfl, hwf⟩
  · rw [hq]; exact ⟨fun _ => rfl, hwf⟩
  · rw [hq]
    constructor
    · intro hcon
      exact absurd rfl hcon
    · intro x hx
      rcases LRUCache.mem_set hx with h1 | h1
      · exact hwf _ h1
      · rw [h1]; rfl

/-- The failing collaborator used to witness claim C6: a thrown value that
is not an `Error` instance. -/
def c6Oracle : StyleOracle := fun _ => Except.error (JsValue.nonErrorValue "boom")

theorem claim_C6_error_never_cached_witness :
    (convertTailwindToCSS defaultConfig c6Oracle emptyCache "a").cache = emptyCache :=
  (claim_C6_error_never_cached defaultConfig c6Oracle emptyCache "a"
    (by intro e he; simp [emptyCache] at he)).1 (by decide)

/-- Claim C5 (amended): for any fixed input, two successive convert calls
with no intervening cache mutation return value-equal results; and
whenever the first call returned without error, the second call performs
no style-computation collaborator invocation (the first call's result was
cached, or no extraction was attempted at all). -/
theorem claim_C5_idempotence_amended :
    ∀ (config : ProcessorConfig) (oracle : StyleOracle)
      (cache : LRUCache String ConversionResult) (classes : String),
      ((convertTailwindToCSS config oracle
          (convertTailwindToCSS config oracle cache classes).cache classes).result
        = (convertTailwindToCSS config oracle cache classes).result)
      ∧ ((convertTailwindToCSS config oracle cache classes).result.error = none →
          (convertTailwindToCSS config oracle
            (convertTailwindToCSS config oracle cache classes).cache
            classes).collaboratorCalls = 0) := by
  intro config oracle cache classes
  rcases convert_cases config oracle cache classes with
    ⟨hE, hq⟩ | ⟨hE, hL, hq⟩ | ⟨v, hE, hL, hGet, hq⟩ | ⟨err, hE, hL, hGet, hVal, hq⟩ |
    ⟨e, hE, hL, hGet, hVal, hOr, hq⟩ | ⟨styles, hE, hL, hGet, hVal, hOr, hq⟩
  · simp only [hq]
    exact ⟨by simp, by simp⟩
  · simp only [hq]
    exact ⟨by simp, by simp⟩
  · have hGet2 := LRUCache.get_hit_again hGet
    simp only [hq]
    rw [convert_cacheHit hE hL hGet2]
    exact ⟨rfl, fun _ => rfl⟩
  · simp only [hq]
    exact ⟨by simp, by simp⟩
  · simp only [hq]
    exact ⟨by simp, by simp⟩
  · have hGet2 := LRUCache.set_get cache (jsTrim classes) (successResult classes styles)
    simp only [hq]
    rw [convert_cacheHit hE hL hGet2]
    exact ⟨rfl, fun _ => rfl⟩

/-- A deterministic collaborator that always throws an `Error` whose
message matches no recognized pattern (a transient fault). -/
def failingOracle : StyleOracle :=
  fun _ => Except.error (JsValue.jsError "Error" "transient fault")

/-- A collaborator that resolves every class string to an empty computed
set (all defaults). -/
def okOracle : StyleOracle := fun _ => Except.ok []

theorem claim_C5_counterexample :
    (convertTailwindToCSS defaultConfig failingOracle
        (convertTailwindToCSS defaultConfig failingOracle emptyCache "a").cache
        "a").collaboratorCalls = 1
    ∧ (convertTailwindToCSS defaultConfig failingOracle
          (convertTailwindToCSS defaultConfig failingOracle emptyCache "a").cache
          "a").result
        = (convertTailwindToCSS defaultConfig failingOracle emptyCache "a").result := by
  decide

theorem claim_C5_idempotence_amended_witness :
    (convertTailwindToCSS defaultConfig okOracle
      (convertTailwindToCSS defaultConfig okOracle emptyCache "a").cache
      "a").collaboratorCalls = 0 :=
  (claim_C5_idempotence_amended defaultConfig okOracle emptyCache "a").2 (by decide)

/-- A collaborator whose style computation throws a `SecurityError`. -/
def securityThrowOracle : StyleOracle :=
  fun _ => Except.error (JsValue.jsError "SecurityError" "computed styles refused")

/-- Claim C2: evaluation of the code at the failing input.  When the
style-computation collaborator throws during extraction, the conversion
does return an error result, but the hidden virtual element is left
attached to the document (`leakedElements = 1`): the source calls
`cleanupVirtualElement` only after a successful extraction, not in a
`finally` block, so the ephemeral styling context is NOT torn down on
this exit path. -/
theorem claim_C2_context_leak_on_throw :
    (convertTailwindToCSS defaultConfig securityThrowOracle emptyCache "a").leakedElements = 1
    ∧ (convertTailwindToCSS defaultConfig securityThrowOracle emptyCache "a").result.error
        = some securityErrorMsg := by
  decide

/-- A collaborator that throws an `Error` instance whose name and message
match none of the recognized classification patterns. -/
def unrecognizedErrorOracle : StyleOracle :=
  fun _ => Except.error (JsValue.jsError "TypeError" "wobbly widget failure")

theorem claim_C9_counterexample :
    (convertTailwindToCSS defaultConfig unrecognizedErrorOracle emptyCache "a").result.error
      = some "wobbly widget failure"
    ∧ ¬"wobbly widget failure" = genericErrorMsg := by
  decide

/-- Claim C9 (amended): every failure thrown during extraction is caught
and returned as `result.error` (never propagated); a thrown value that is
not an `Error` instance is reported with the generic message, its own
representation never consulted; but a thrown `Error` instance matching
none of the recognized patterns (security / context-construction /
style-computation) is reported with its own `message` string rather than
the generic message. -/
theorem claim_C9_error_reporting_amended :
    ∀ (config : ProcessorConfig) (oracle : StyleOracle)
      (cache : LRUCache String ConversionResult) (classes : String) (e : JsValue),
      ¬jsTrim classes = "" → ¬classes.length > config.maxInputLength →
      (LRUCache.get cache (jsTrim classes)).1 = none →
      (validateInput classes).error = none →
      oracle (sanitizeInput classes) = Except.error e →
      ((convertTailwindToCSS config oracle cache classes).result.error
          = some (formatError e)
        ∧ (convertTailwindToCSS config oracle cache classes).result.css = ""
        ∧ (convertTailwindToCSS config oracle cache classes).stage = Stage.caught
        ∧ (∀ r, formatError (JsValue.nonErrorValue r) = genericErrorMsg)
        ∧ (∀ name msg, e = JsValue.jsError name msg → ¬name = "SecurityError" →
            containsStr msg.data "DOM".data = false →
            containsStr msg.data "getComputedStyle".data = false →
            formatError e = msg)) := by
  intro config oracle cache classes e hE hL hGet hVal hOr
  rw [convert_caught hE hL hGet hVal hOr]
  refine ⟨rfl, rfl, rfl, fun r => rfl, ?_⟩
  intro name msg he hname hdom hgcs
  subst he
  unfold formatError
  dsimp only
  rw [if_neg (by simp [hname]), if_neg (by simp [hdom]), if_neg (by simp [hgcs])]

theorem claim_C9_error_reporting_amended_witness :
    (convertTailwindToCSS defaultConfig unrecognizedErrorOracle emptyCache "a").result.error
      = some (formatError (JsValue.jsError "TypeError" "wobbly widget failure")) :=
  (claim_C9_error_reporting_amended defaultConfig unrecognizedErrorOracle emptyCache "a"
    (JsValue.jsError "TypeError" "wobbly widget failure")
    (by decide) (by decide) (by decide) (by decide) rfl).1

/-- A cache state planted with an entry whose key would be rejected by the
unsafe-content guard.  No such state is ever produced by the processor
itself, but the claim quantifies over every cache state. -/
def plantedCache : LRUCache String ConversionResult :=
  ⟨[("<script", { css := "cached-css" })], 50⟩

theorem claim_C3_counterexample :
    (validateInput "<script").error = some unsafeMsg
    ∧ (convertTailwindToCSS defaultConfig okOracle plantedCache "<script").result
        = { css := "cached-css" }
    ∧ (convertTailwindToCSS defaultConfig okOracle plantedCache "<script").stage
        = Stage.cacheHit := by
  decide

/-- Claim C3 (amended): the cache is consulted after the emptiness and
length checks but BEFORE the unsafe-content and special-character-density
checks.  An input rejected by the length check returns that error
regardless of cache contents; an input rejected by the unsafe-content or
density check returns that guard's error whenever its trimmed key is
absent from the cache (which holds in every state the processor itself
can produce, since guard failures are never stored), never invokes the
collaborator, and leaves the cache unchanged. -/
theorem claim_C3_guard_cache_order_amended :
    (∀ (config : ProcessorConfig) (oracle : StyleOracle)
        (cache : LRUCache String ConversionResult) (classes : String),
        ¬jsTrim classes = "" → classes.length > config.maxInputLength →
        ((convertTailwindToCSS config oracle cache classes).result.error
            = some (tooLongMsg config.maxInputLength)
          ∧ (convertTailwindToCSS config oracle cache classes).cache = cache))
    ∧ (∀ (config : ProcessorConfig) (oracle : StyleOracle)
        (cache : LRUCache String ConversionResult) (classes : String) (err : String),
        ¬jsTrim classes = "" → ¬classes.length > config.maxInputLength →
        (LRUCache.get cache (jsTrim classes)).1 = none →
        (validateInput classes).error = some err →
        ((convertTailwindToCSS config oracle cache classes).result.error = some err
          ∧ (convertTailwindToCSS config oracle cache classes).cache = cache
          ∧ (convertTailwindToCSS config oracle cache classes).collaboratorCalls = 0)) := by
  constructor
  · intro config oracle cache classes hE hL
    rw [convert_tooLong config oracle cache classes hE hL]
    exact ⟨rfl, rfl⟩
  · intro config oracle cache classes err hE hL hGet hVal
    rw [convert_guardFail hE hL hGet hVal]
    exact ⟨hVal, rfl, rfl⟩

theorem claim_C3_guard_cache_order_amended_witness :
    (convertTailwindToCSS defaultConfig okOracle emptyCache "<script").result.error
        = some unsafeMsg
    ∧ (convertTailwindToCSS defaultConfig okOracle emptyCache "<script").cache
        = emptyCache :=
  ⟨(claim_C3_guard_cache_order_amended.2 defaultConfig okOracle emptyCache "<script"
      unsafeMsg (by decide) (by decide) (by decide) (by decide)).1,
   (claim_C3_guard_cache_order_amended.2 defaultConfig okOracle emptyCache "<script"
      unsafeMsg (by decide) (by decide) (by decide) (by decide)).2.1⟩

theorem dropWhile_jsWs_replicate_space (n : Nat) :
    (List.replicate n ' ').dropWhile jsWs = [] := by
  induction n with
  | zero => rfl
  | succ n ih =>
    rw [List.replicate_succ, List.dropWhile_cons]
    simp only [show jsWs ' ' = true from rfl, if_true]
    exact ih

theorem jsTrim_replicate_space (n : Nat) :
    jsTrim (String.mk (List.replicate n ' ')) = "" := by
  unfold jsTrim jsTrimList
  rw [show (String.mk (List.replicate n ' ')).data = List.replicate n ' ' from rfl,
    dropWhile_jsWs_replicate_space]
  rfl

theorem jsTrim_replicate_a (n : Nat) :
    jsTrim (String.mk (List.replicate n 'a')) = String.mk (List.replicate n 'a') := by
  unfold jsTrim jsTrimList
  rw [show (String.mk (List.replicate n 'a')).data = List.replicate n 'a' from rfl]
  cases n with
  | zero => rfl
  | succ n =>
    rw [List.replicate_succ, List.dropWhile_cons, if_neg (by decide)]
    rw [← List.replicate_succ, List.reverse_replicate, List.replicate_succ,
      List.dropWhile_cons, if_neg (by decide), ← List.replicate_succ,
      List.reverse_replicate]

theorem claim_C4_counterexample :
    (String.mk (List.replicate 10001 ' ')).length = 10001
    ∧ (convertTailwindToCSS defaultConfig okOracle emptyCache
        (String.mk (List.replicate 10001 ' '))).result = { css := "" }
    ∧ (convertTailwindToCSS defaultConfig okOracle emptyCache
        (String.mk (List.replicate 10001 ' '))).result.error = none := by
  refine ⟨?_, ?_, ?_⟩
  · show (List.replicate 10001 ' ').length = 10001
    rw [List.length_replicate]
  · rw [convert_emptyInput _ _ _ _ (jsTrim_replicate_space 10001)]
  · rw [convert_emptyInput _ _ _ _ (jsTrim_replicate_space 10001)]

/-- Claim C4 (amended): an input of length 10,001 that is non-empty after
trimming always fails with the input-too-long error naming the default
limit of 10,000; an input of exactly 10,000 characters is never rejected
by the length check.  (An input of 10,001 characters that trims to the
empty string is instead accepted by the emptiness check, which runs
first, and succeeds with empty css.) -/
theorem claim_C4_length_boundary_amended :
    (∀ (oracle : StyleOracle) (cache : LRUCache String ConversionResult)
        (classes : String),
        ¬jsTrim classes = "" → classes.length = 10001 →
        ((convertTailwindToCSS defaultConfig oracle cache classes).result.error
            = some (tooLongMsg 10000)
          ∧ (convertTailwindToCSS defaultConfig oracle cache classes).stage
            = Stage.tooLong))
    ∧ (∀ (oracle : StyleOracle) (cache : LRUCache String ConversionResult)
        (classes : String),
        classes.length = 10000 →
        (convertTailwindToCSS defaultConfig oracle cache classes).stage
          ≠ Stage.tooLong) := by
  constructor
  · intro oracle cache classes hE hlen
    have hmax : defaultConfig.maxInputLength = 10000 := rfl
    have hL : classes.length > defaultConfig.maxInputLength := by omega
    rw [convert_tooLong defaultConfig oracle cache classes hE hL]
    exact ⟨rfl, rfl⟩
  · intro oracle cache classes hlen
    have hmax : defaultConfig.maxInputLength = 10000 := rfl
    rcases convert_cases defaultConfig oracle cache classes with
      ⟨-, hq⟩ | ⟨-, hL, -⟩ | ⟨v, -, -, -, hq⟩ | ⟨err, -, -, -, -, hq⟩ |
      ⟨e, -, -, -, -, -, hq⟩ | ⟨styles, -, -, -, -, -, hq⟩
    · rw [hq]; simp
    · omega
    · rw [hq]; simp
    · rw [hq]; simp
    · rw [hq]; simp
    · rw [hq]; simp

theorem claim_C4_length_boundary_amended_witness :
    (convertTailwindToCSS defaultConfig okOracle emptyCache
        (String.mk (List.replicate 10001 'a'))).result.error = some (tooLongMsg 10000) :=
  (claim_C4_length_boundary_amended.1 okOracle emptyCache
    (String.mk (List.replicate 10001 'a'))
    (by
      rw [jsTrim_replicate_a]
      intro h
      have h2 : (List.replicate 10001 'a').length = 0 := by
        have h3 := congrArg String.data h
        rw [show (String.mk (List.replicate 10001 'a')).data
            = List.replicate 10001 'a' from rfl] at h3
        rw [h3]
        rfl
      rw [List.length_replicate] at h2
      exact absurd h2 (by decide))
    (by
      show (List.replicate 10001 'a').length = 10001
      rw [List.length_replicate])).1

/-- A collaborator resolving every class string to a single non-default
padding. -/
def paddingOracle : StyleOracle := fun _ => Except.ok [("padding", "16px")]

/-- Claim C8: cache identity is exactly trim-equality of the input text.
After a successful conversion of `x`, any input with the same trimmed
text (and admissible length) is served from the same cache entry — same
stored result, no collaborator invocation; an input with a different
trimmed text is never a cache hit against a fresh processor that has
converted only `x` (internal whitespace is not collapsed in the key).
Concretely: converting `"a"` then `" a "` hits the same entry with the
identical result, while converting `"a  b"` then `"a b"` re-extracts. -/
theorem claim_C8_cache_key_trim :
    (∀ (config : ProcessorConfig) (oracle : StyleOracle)
        (cache : LRUCache String ConversionResult) (x y : String),
        (convertTailwindToCSS config oracle cache x).stage = Stage.success →
        jsTrim x = jsTrim y → ¬y.length > config.maxInputLength →
        ((convertTailwindToCSS config oracle
            (convertTailwindToCSS config oracle cache x).cache y).stage = Stage.cacheHit
          ∧ (convertTailwindToCSS config oracle
              (convertTailwindToCSS config oracle cache x).cache y).result
            = (convertTailwindToCSS config oracle cache x).result
          ∧ (convertTailwindToCSS config oracle
              (convertTailwindToCSS config oracle cache x).cache y).collaboratorCalls
            = 0))
    ∧ (∀ (config : ProcessorConfig) (oracle : StyleOracle) (x y : String),
        ¬jsTrim x = jsTrim y →
        (convertTailwindToCSS config oracle
            (convertTailwindToCSS config oracle ⟨[], 50⟩ x).cache y).stage
          ≠ Stage.cacheHit)
    ∧ ((convertTailwindToCSS defaultConfig paddingOracle
          (convertTailwindToCSS defaultConfig paddingOracle emptyCache "a").cache
          " a ").stage = Stage.cacheHit
        ∧ (convertTailwindToCSS defaultConfig paddingOracle
            (convertTailwindToCSS defaultConfig paddingOracle emptyCache "a").cache
            " a ").result
          = (convertTailwindToCSS defaultConfig paddingOracle emptyCache "a").result)
    ∧ ((convertTailwindToCSS defaultConfig paddingOracle
          (convertTailwindToCSS defaultConfig paddingOracle emptyCache "a  b").cache
          "a b").stage = Stage.success
        ∧ (convertTailwindToCSS defaultConfig paddingOracle
            (convertTailwindToCSS defaultConfig paddingOracle emptyCache "a  b").cache
            "a b").collaboratorCalls = 1) := by
  refine ⟨?_, ?_, by decide, by decide⟩
  · intro config oracle cache x y hstage htrim hLy
    rcases convert_cases config oracle cache x with
      ⟨-, hq⟩ | ⟨-, -, hq⟩ | ⟨v, -, -, -, hq⟩ | ⟨err, -, -, -, -, hq⟩ |
      ⟨e, -, -, -, -, -, hq⟩ | ⟨styles, hEx, hLx, hGetx, hValx, hq⟩
    · rw [hq] at hstage; simp at hstage
    · rw [hq] at hstage; simp at hstage
    · rw [hq] at hstage; simp at hstage
    · rw [hq] at hstage; simp at hstage
    · rw [hq] at hstage; simp at hstage
    · have hEy : ¬jsTrim y = "" := htrim ▸ hEx
      have hGet2 : (LRUCache.get
          (LRUCache.set cache (jsTrim x) (successResult x styles)) (jsTrim y)).1
          = some (successResult x styles) := by
        rw [← htrim]
        exact LRUCache.set_get cache (jsTrim x) (successResult x styles)
      simp only [hq]
      rw [convert_cacheHit hEy hLy hGet2]
      exact ⟨rfl, rfl, rfl⟩
  · intro config oracle x y htrim hcon
    rcases convert_cases config oracle
        (convertTailwindToCSS config oracle ⟨[], 50⟩ x).cache y with
      ⟨-, hq⟩ | ⟨-, -, hq⟩ | ⟨v, -, -, hGety, hq⟩ | ⟨err, -, -, -, -, hq⟩ |
      ⟨e, -, -, -, -, -, hq⟩ | ⟨styles, -, -, -, -, -, hq⟩
    · rw [hq] at hcon; simp at hcon
    · rw [hq] at hcon; simp at hcon
    · have hmem := (LRUCache.get_hit hGety).1
      rcases convert_cases config oracle (⟨[], 50⟩ : LRUCache String ConversionResult) x with
        ⟨-, hq1⟩ | ⟨-, -, hq1⟩ | ⟨v1, -, -, hGet1, -⟩ | ⟨err1, -, -, -, -, hq1⟩ |
        ⟨e1, -, -, -, -, -, hq1⟩ | ⟨styles1, -, -, -, -, -, hq1⟩
      · rw [hq1] at hmem; exact absurd hmem (List.not_mem_nil _)
      · rw [hq1] at hmem; exact absurd hmem (List.not_mem_nil _)
      · simp [LRUCache.get] at hGet1
      · rw [hq1] at hmem; exact absurd hmem (List.not_mem_nil _)
      · rw [hq1] at hmem; exact absurd hmem (List.not_mem_nil _)
      · rw [hq1] at hmem
        rcases LRUCache.mem_set hmem with h1 | h1
        · exact absurd h1 (List.not_mem_nil _)
        · have := congrArg Prod.fst h1
          exact absurd (this : jsTrim y = jsTrim x) (fun h => htrim h.symm)
    · rw [hq] at hcon; simp at hcon
    · rw [hq] at hcon; simp at hcon
    · rw [hq] at hcon; simp at hcon

theorem claim_C8_cache_key_trim_witness :
    (convertTailwindToCSS defaultConfig okOracle
        (convertTailwindToCSS defaultConfig okOracle emptyCache "b").cache
        " b ").stage = Stage.cacheHit :=
  (claim_C8_cache_key_trim.1 defaultConfig okOracle emptyCache "b" " b "
    (by decide) (by decide) (by decide)).1

theorem claim_C1_counterexample :
    (convertTailwindToCSS defaultConfig paddingOracle emptyCache "p-4").result.error = none
    ∧ generateWarnings (sanitizeInput "p-4") (formatCSS [("padding", "16px")]) = []
    ∧ ¬(convertTailwindToCSS defaultConfig paddingOracle emptyCache "p-4").result.warnings
        = some []
    ∧ (convertTailwindToCSS defaultConfig paddingOracle emptyCache "p-4").result.warnings
        = none := by
  decide

/-- Claim C1 (amended): for every non-empty input that passes all guard
checks and whose conversion succeeds, the `warnings` field is ABSENT
(`undefined`) when no diagnostic triggered — not an empty list; the field
is present exactly when at least one diagnostic triggered, and is then
non-empty. -/
theorem claim_C1_warnings_amended :
    ∀ (config : ProcessorConfig) (oracle : StyleOracle)
      (cache : LRUCache String ConversionResult) (classes : String) (styles : StyleDecl),
      ¬jsTrim classes = "" → ¬classes.length > config.maxInputLength →
      (LRUCache.get cache (jsTrim classes)).1 = none →
      (validateInput classes).error = none →
      oracle (sanitizeInput classes) = Except.ok styles →
      ((convertTailwindToCSS config oracle cache classes).result.error = none
        ∧ ((convertTailwindToCSS config oracle cache classes).result.warnings = none
            ↔ generateWarnings (sanitizeInput classes) (formatCSS styles) = [])
        ∧ (∀ w, (convertTailwindToCSS config oracle cache classes).result.warnings
            = some w → ¬w = [])) := by
  intro config oracle cache classes styles hE hL hGet hVal hOr
  rw [convert_success hE hL hGet hVal hOr]
  refine ⟨rfl, ?_, ?_⟩
  · cases hw : generateWarnings (sanitizeInput classes) (formatCSS styles) with
    | nil => simp [successResult, hw]
    | cons a as => simp [successResult, hw]
  · intro w hwsome
    cases hw : generateWarnings (sanitizeInput classes) (formatCSS styles) with
    | nil => simp [successResult, hw] at hwsome
    | cons a as =>
      simp [successResult, hw] at hwsome
      rw [← hwsome]
      simp

theorem claim_C1_warnings_amended_witness :
    (convertTailwindToCSS defaultConfig paddingOracle emptyCache "p-4").result.warnings
      = none :=
  ((claim_C1_warnings_amended defaultConfig paddingOracle emptyCache "p-4"
      [("padding", "16px")]
      (by decide) (by decide) (by decide) (by decide) rfl).2.1).mpr (by decide)

theorem isSpecial_elim (c : Char) (h : isSpecial c = true) :
    c = '<' ∨ c = '>' ∨ c = '\x7b' ∨ c = '\x7d' ∨
      c = '(' ∨ c = ')' ∨ c = '[' ∨ c = ']' := by
  simp [isSpecial] at h
  tauto

theorem isSpecial_not_ws (c : Char) (h : isSpecial c = true) : jsWs c = false := by
  rcases isSpecial_elim c h with rfl | rfl | rfl | rfl | rfl | rfl | rfl | rfl <;> rfl

theorem startsWithCI_mem :
    ∀ (p s : List Char), startsWithCI s p = true →
      ∀ pc ∈ p, ∃ sc ∈ s, sc.toLower = pc.toLower := by
  intro p
  induction p with
  | nil =>
    intro s _ pc hpc
    exact absurd hpc (List.not_mem_nil pc)
  | cons q qs ih =>
    intro s h pc hpc
    cases s with
    | nil => simp [startsWithCI] at h
    | cons c cs =>
      rw [startsWithCI] at h
      rw [Bool.and_eq_true] at h
      obtain ⟨h1, h2⟩ := h
      rw [beq_iff_eq] at h1
      rcases List.mem_cons.mp hpc with rfl | hpc2
      · exact ⟨c, List.mem_cons_self c cs, h1⟩
      · obtain ⟨sc, hsc, heq⟩ := ih cs h2 pc hpc2
        exact ⟨sc, List.mem_cons_of_mem c hsc, heq⟩

theorem containsCI_mem :
    ∀ (s p : List Char), containsCI s p = true →
      ∀ pc ∈ p, ∃ sc ∈ s, sc.toLower = pc.toLower := by
  intro s
  induction s with
  | nil =>
    intro p h pc hpc
    rw [containsCI] at h
    rw [List.isEmpty_iff] at h
    subst h
    exact absurd hpc (List.not_mem_nil pc)
  | cons c cs ih =>
    intro p h pc hpc
    rw [containsCI, Bool.or_eq_true] at h
    rcases h with h1 | h1
    · exact startsWithCI_mem p (c :: cs) h1 pc hpc
    · obtain ⟨sc, hsc, heq⟩ := ih p h1 pc hpc
      exact ⟨sc, List.mem_cons_of_mem c hsc, heq⟩

theorem containsCI_specials_false (l p : List Char) (pc : Char)
    (hl : ∀ c ∈ l, isSpecial c = true) (hpc : pc ∈ p)
    (hno : ∀ c, isSpecial c = true → ¬c.toLower = pc.toLower) :
    containsCI l p = false := by
  cases hb : containsCI l p with
  | false => rfl
  | true =>
    obtain ⟨sc, hsc, heq⟩ := containsCI_mem l p hb pc hpc
    exact absurd heq (hno sc (hl sc hsc))

theorem onEventHit_specials (l : List Char) (hl : ∀ c ∈ l, isSpecial c = true) :
    onEventHit l = false := by
  induction l with
  | nil => rfl
  | cons c cs ih =>
    unfold onEventHit
    have hc : (c.toLower == 'o') = false := by
      have h := hl c (List.mem_cons_self c cs)
      rcases isSpecial_elim c h with rfl | rfl | rfl | rfl | rfl | rfl | rfl | rfl <;> rfl
    rw [hc]
    simp only [Bool.false_and, Bool.false_or]
    exact ih (fun d hd => hl d (List.mem_cons_of_mem c hd))

theorem validateInput_specials (classes : String)
    (hl : ∀ c ∈ classes.data, isSpecial c = true)
    (hlen : classes.length ≤ 10) :
    validateInput classes = { css := "" } := by
  have hd : dangerousHit classes.data = false := by
    unfold dangerousHit
    rw [containsCI_specials_false classes.data _ 's' hl (by decide)
        (fun c hc => by rcases isSpecial_elim c hc with
          rfl | rfl | rfl | rfl | rfl | rfl | rfl | rfl <;> decide),
      containsCI_specials_false classes.data _ 'j' hl (by decide)
        (fun c hc => by rcases isSpecial_elim c hc with
          rfl | rfl | rfl | rfl | rfl | rfl | rfl | rfl <;> decide),
      containsCI_specials_false classes.data _ 'f' hl (by decide)
        (fun c hc => by rcases isSpecial_elim c hc with
          rfl | rfl | rfl | rfl | rfl | rfl | rfl | rfl <;> decide),
      containsCI_specials_false classes.data _ 'b' hl (by decide)
        (fun c hc => by rcases isSpecial_elim c hc with
          rfl | rfl | rfl | rfl | rfl | rfl | rfl | rfl <;> decide),
      containsCI_specials_false classes.data _ 'm' hl (by decide)
        (fun c hc => by rcases isSpecial_elim c hc with
          rfl | rfl | rfl | rfl | rfl | rfl | rfl | rfl <;> decide),
      onEventHit_specials classes.data hl]
    rfl
  have hcount : specialCharCount classes.data = classes.length := by
    unfold specialCharCount
    rw [List.filter_eq_self.mpr hl]
    rfl
  unfold validateInput
  rw [if_neg (by simp [hd]), if_neg (by omega)]

theorem sanitizeInput_specials (classes : String)
    (hl : ∀ c ∈ classes.data, isSpecial c = true) :
    sanitizeInput classes = "" := by
  unfold sanitizeInput
  rw [List.filter_eq_nil_iff.mpr (fun c hc => by simp [hl c hc])]
  rfl

theorem dropWhile_eq_self_of_not (l : List Char) (h : ∀ c ∈ l, jsWs c = false) :
    l.dropWhile jsWs = l := by
  cases l with
  | nil => rfl
  | cons a as =>
    rw [List.dropWhile_cons, if_neg (by simp [h a (List.mem_cons_self a as)])]

theorem jsTrim_eq_self_of_not (s : String) (h : ∀ c ∈ s.data, jsWs c = false) :
    jsTrim s = s := by
  unfold jsTrim jsTrimList
  rw [dropWhile_eq_self_of_not _ h,
    dropWhile_eq_self_of_not _ (fun c hc => h c (List.mem_reverse.mp hc)),
    List.reverse_reverse]

theorem formatCSS_defaults (styles : StyleDecl)
    (h : ∀ p ∈ relevantProps,
      getPropertyValue styles p = "" ∨
        isNonDefaultValue p (getPropertyValue styles p) = false) :
    formatCSS styles = noStylesMsg := by
  simp only [formatCSS]
  rw [List.filterMap_eq_nil_iff.mpr ?_]
  · rfl
  · intro p hp
    have hp2 : p ∈ relevantProps := (List.mem_filter.mp hp).1
    rcases h p hp2 with hv | hnd
    · rw [hv]
      rfl
    · simp [hnd]

/-- Claim C10: an input that is non-empty, consists solely of at most ten
characters from the class `<>{}()[]`, and whose trimmed key is not yet
cached, passes every guard check (it cannot match an injection pattern
and its special-character count is within the threshold), sanitizes to
the empty string, and — when the collaborator resolves no non-default
property for the empty class string — succeeds with css equal to the
no-styles sentinel, no error and no warnings (the no-styles warning is
suppressed because the sanitized input has zero tokens); the result is
cached under the trimmed original input, which equals the input itself. -/
theorem claim_C10_bracket_only_inputs :
    ∀ (oracle : StyleOracle) (cache : LRUCache String ConversionResult)
      (classes : String) (styles : StyleDecl),
      ¬classes = "" →
      (∀ c ∈ classes.data, isSpecial c = true) →
      classes.length ≤ 10 →
      (LRUCache.get cache classes).1 = none →
      oracle "" = Except.ok styles →
      (∀ p ∈ relevantProps,
        getPropertyValue styles p = "" ∨
          isNonDefaultValue p (getPropertyValue styles p) = false) →
      (jsTrim classes = classes
        ∧ convertTailwindToCSS defaultConfig oracle cache classes =
          { result := { css := noStylesMsg, error := none, warnings := none },
            cache := LRUCache.set cache classes
              { css := noStylesMsg, error := none, warnings := none },
            stage := Stage.success, collaboratorCalls := 1, leakedElements := 0 }) := by
  intro oracle cache classes styles hne hsp hlen hmiss horacle hdef
  have htrim : jsTrim classes = classes :=
    jsTrim_eq_self_of_not classes (fun c hc => isSpecial_not_ws c (hsp c hc))
  have hE : ¬jsTrim classes = "" := by rw [htrim]; exact hne
  have hL : ¬classes.length > defaultConfig.maxInputLength := by
    have hmax : defaultConfig.maxInputLength = 10000 := rfl
    omega
  have hGet : (LRUCache.get cache (jsTrim classes)).1 = none := by
    rw [htrim]; exact hmiss
  have hVal : (validateInput classes).error = none := by
    rw [validateInput_specials classes hsp hlen]
  have hsan : sanitizeInput classes = "" := sanitizeInput_specials classes hsp
  have hOr : oracle (sanitizeInput classes) = Except.ok styles := by
    rw [hsan]; exact horacle
  have hres : successResult classes styles =
      { css := noStylesMsg, error := none, warnings := none } := by
    simp only [successResult]
    rw [formatCSS_defaults styles hdef, hsan]
    have hw : generateWarnings "" noStylesMsg = [] := by decide
    rw [hw]
    rfl
  refine ⟨htrim, ?_⟩
  rw [convert_success hE hL hGet hVal hOr, hres, htrim]

theorem claim_C10_bracket_only_inputs_witness :
    jsTrim "<>" = "<>"
    ∧ convertTailwindToCSS defaultConfig okOracle emptyCache "<>" =
      { result := { css := noStylesMsg, error := none, warnings := none },
        cache := LRUCache.set emptyCache "<>"
          { css := noStylesMsg, error := none, warnings := none },
        stage := Stage.success, collaboratorCalls := 1, leakedElements := 0 } :=
  claim_C10_bracket_only_inputs okOracle emptyCache "<>" []
    (by decide) (by decide) (by decide) (by decide) rfl (by decide)
